import Mathlib

/-!
Verification of the MemAgent session/pipeline orchestrator spec against the
repository's code. Frontend code (ChatInterface.tsx, ReferencePhotoSelector.tsx,
frontend/lib/api.ts) is embedded directly; the backend stage machine, budget
governor and photo search live outside the available sources, so those parts
are modelled from the specification (each such definition is marked
`Modelled from the spec:` in its doc comment).
-/

namespace MemAgent

/-! ## ReferencePhotoSelector (src/frontend/components/ReferencePhotoSelector.tsx) -/

/-- Embedding of `togglePhoto` (ReferencePhotoSelector.tsx lines 31-39): copy the
selected-id set, delete the id if present, insert it otherwise. -/
def togglePhoto (selectedIds : Finset String) (photoId : String) : Finset String :=
  if photoId ∈ selectedIds then selectedIds.erase photoId else insert photoId selectedIds

/-- The selection state reached after a sequence of photo clicks, each click
calling `togglePhoto` with that photo's `media_item_id` (the only writer of
`selectedIds` in the component). -/
def runToggles (selectedIds : Finset String) (clicks : List String) : Finset String :=
  clicks.foldl togglePhoto selectedIds

theorem togglePhoto_preserves_subset (acc photoIds : Finset String) (c : String)
    (hacc : acc ⊆ photoIds) (hc : c ∈ photoIds) : togglePhoto acc c ⊆ photoIds := by
  unfold togglePhoto
  by_cases h : c ∈ acc
  · simp only [h, if_true]
    exact fun x hx => hacc (Finset.mem_of_mem_erase hx)
  · simp only [h, if_false]
    intro x hx
    rcases Finset.mem_insert.mp hx with rfl | hx
    · exact hc
    · exact hacc hx

theorem runToggles_subset (photoIds : Finset String) (clicks : List String)
    (hclicks : ∀ c ∈ clicks, c ∈ photoIds) :
    ∀ acc, acc ⊆ photoIds → runToggles acc clicks ⊆ photoIds := by
  induction clicks with
  | nil => intro acc hacc; exact hacc
  | cons c rest ih =>
    intro acc hacc
    have hc : c ∈ photoIds := hclicks c (List.mem_cons_self c rest)
    have hrest : ∀ x ∈ rest, x ∈ photoIds := fun x hx => hclicks x (List.mem_cons_of_mem c hx)
    exact ih hrest (togglePhoto acc c) (togglePhoto_preserves_subset acc photoIds c hacc hc)

/-! ## getImageFilenameFromUrl (src/frontend/lib/api.ts lines 230-240) -/

/-- Split of a character list on a separator character, mirroring the semantics
of JavaScript `String.prototype.split` with a single-character separator
(`"".split(c) = [""]`, leading/trailing separators yield empty segments). -/
def splitCharAux (sep : Char) : List Char → List Char → List (List Char)
  | [], acc => [acc.reverse]
  | c :: rest, acc =>
    if c = sep then acc.reverse :: splitCharAux sep rest []
    else splitCharAux sep rest (c :: acc)

/-- `path.split('/')` as used at api.ts line 234. -/
def splitOnSlash (path : String) : List String :=
  (splitCharAux '/' path.toList []).map (fun l => String.mk l)

/-- Embedding of `getImageFilenameFromUrl` (api.ts lines 230-240).
`imageUrl = none` models a JavaScript `undefined` argument; the empty string is
the other falsy string value, so both hit the `if (!imageUrl) return null`
guard. `parseUrlPathname u` models `new URL(u, base).pathname`: `none` when
the `URL` constructor throws (the `catch` branch returns `null`), otherwise the
parsed pathname — which by construction carries neither the host nor the query
string. The function is a total Lean definition, so "never throws" is modelled
by every failure mode returning `none`. -/
def getImageFilenameFromUrl (parseUrlPathname : String → Option String) :
    Option String → Option String
  | none => none
  | some u =>
    if u = "" then none
    else
      match parseUrlPathname u with
      | none => none
      | some path =>
        let segments := splitOnSlash path
        let last := segments.getLastD ""
        if last ≠ "" ∧ '.' ∈ last.toList then some last else none

/-- C9: `togglePhoto` is an involution on the selected-id set — toggling an id
flips exactly that id's membership, leaves every other id's membership
unchanged, and toggling the same id twice restores the original selection —
and the ids a sequence of clicks on displayed photos can accumulate (hence the
ids `handleConfirm` passes to `onConfirm`) are always a subset of the displayed
photos' `media_item_id`s. -/
theorem togglePhoto_involution_confirm_subset
    (s : Finset String) (x : String) (photoIds : Finset String) (clicks : List String)
    (hclicks : ∀ c ∈ clicks, c ∈ photoIds) :
    (x ∈ togglePhoto s x ↔ x ∉ s)
    ∧ (∀ y, y ≠ x → (y ∈ togglePhoto s x ↔ y ∈ s))
    ∧ togglePhoto (togglePhoto s x) x = s
    ∧ runToggles ∅ clicks ⊆ photoIds := by
  refine ⟨?_, ?_, ?_, ?_⟩
  · by_cases h : x ∈ s <;> simp [togglePhoto, h]
  · intro y hy
    by_cases h : x ∈ s <;> simp [togglePhoto, h, Finset.mem_erase, Finset.mem_insert, hy]
  · by_cases h : x ∈ s
    · have h1 : togglePhoto s x = s.erase x := by simp [togglePhoto, h]
      have h2 : x ∉ s.erase x := Finset.not_mem_erase x s
      rw [h1]
      simp only [togglePhoto, h2, if_false]
      exact Finset.insert_erase h
    · have h1 : togglePhoto s x = insert x s := by simp [togglePhoto, h]
      have h2 : x ∈ insert x s := Finset.mem_insert_self x s
      rw [h1]
      simp only [togglePhoto, h2, if_true]
      exact Finset.erase_insert h
  · exact runToggles_subset photoIds clicks hclicks ∅ (Finset.empty_subset photoIds)

/-- Witness for C9 at a concrete selection, photo list and click sequence. -/
theorem togglePhoto_involution_confirm_subset_witness :
    (∀ c ∈ ["a", "b", "a"], c ∈ ({"a", "b", "c"} : Finset String))
    ∧ (("a" ∈ togglePhoto {"a", "c"} "a" ↔ "a" ∉ ({"a", "c"} : Finset String))
      ∧ (∀ y, y ≠ "a" → (y ∈ togglePhoto {"a", "c"} "a" ↔ y ∈ ({"a", "c"} : Finset String)))
      ∧ togglePhoto (togglePhoto {"a", "c"} "a") "a" = {"a", "c"}
      ∧ runToggles ∅ ["a", "b", "a"] ⊆ ({"a", "b", "c"} : Finset String)) :=
  ⟨by decide, togglePhoto_involution_confirm_subset {"a", "c"} "a" {"a", "b", "c"}
    ["a", "b", "a"] (by decide)⟩

/-- C10: `getImageFilenameFromUrl` is total (modelled as a total function into
`Option`, so no input throws) and returns `none` exactly when the input is
`undefined`, empty, not parseable as a URL (the constructor throws), or when
the final '/'-separated segment of the parsed URL pathname is empty or
contains no '.'; otherwise it returns exactly that final pathname segment —
taken from the pathname, so host and query string are never part of it. -/
theorem getImageFilenameFromUrl_spec (parseUrlPathname : String → Option String) :
    (getImageFilenameFromUrl parseUrlPathname none = none)
    ∧ (getImageFilenameFromUrl parseUrlPathname (some "") = none)
    ∧ (∀ u, u ≠ "" → parseUrlPathname u = none →
        getImageFilenameFromUrl parseUrlPathname (some u) = none)
    ∧ (∀ u path, u ≠ "" → parseUrlPathname u = some path →
        ¬ ((splitOnSlash path).getLastD "" ≠ "" ∧ '.' ∈ ((splitOnSlash path).getLastD "").toList) →
        getImageFilenameFromUrl parseUrlPathname (some u) = none)
    ∧ (∀ u path, u ≠ "" → parseUrlPathname u = some path →
        ((splitOnSlash path).getLastD "" ≠ "" ∧ '.' ∈ ((splitOnSlash path).getLastD "").toList) →
        getImageFilenameFromUrl parseUrlPathname (some u) = some ((splitOnSlash path).getLastD "")) := by
  refine ⟨rfl, rfl, ?_, ?_, ?_⟩
  · intro u hu hp
    simp [getImageFilenameFromUrl, hu, hp]
  · intro u path hu hp hlast
    simp only [getImageFilenameFromUrl]
    rw [if_neg hu, hp]
    exact if_neg hlast
  · intro u path hu hp hlast
    simp only [getImageFilenameFromUrl]
    rw [if_neg hu, hp]
    exact if_pos hlast

/-- Witness for C10: a concrete parse result for a backend image URL yields
exactly the final pathname segment, without host or query. -/
theorem getImageFilenameFromUrl_spec_witness :
    getImageFilenameFromUrl (fun _ => some "/api/photos/images/memory_1.jpg")
      (some "http://localhost:8000/api/photos/images/memory_1.jpg?user_id=u1")
      = some "memory_1.jpg" := by
  have h := (getImageFilenameFromUrl_spec (fun _ => some "/api/photos/images/memory_1.jpg")).2.2.2.2
    "http://localhost:8000/api/photos/images/memory_1.jpg?user_id=u1"
    "/api/photos/images/memory_1.jpg" (by decide) rfl (by decide)
  rw [h]
  decide

/-! ## Picker polling (src/unnamed/part_000, ChatInterface: effect lines 73-98,
`handlePickerFinished` lines 277-332) -/

/-- `pollIntervalMs = 3000` (part_000 lines 80, 281). -/
def pollIntervalMs : Nat := 3000

/-- `timeoutMs = 120000` (part_000 lines 81, 282). -/
def pickerTimeoutMs : Nat := 120000

/-- State of the processed-picker-sessions guard for one picker session:
whether its id is in `processedPickerSessionsRef` (line 63) and how many times
its completion event has been processed (media list fetched and photos stored,
`handlePickerFinished` lines 286-301). -/
structure GuardState where
  processed : Bool
  processCount : Nat
deriving DecidableEq, Repr

/-- An observation of the picker session's status by one of the two code paths.
`autoRun b` is a polling run started by the effect (lines 73-98): the guard at
line 78 refuses to start it when the session is already in the processed set;
when its poll sees `media_items_set = b = true` it adds the id to the set
(line 88) and invokes completion handling (line 89); the interval is cleared
as soon as handling flips `loading`, so one run handles the completion at most
once. `manualCheck b` is the "Check selection" button (line 439): it calls
`handlePickerFinished` directly, which neither consults nor updates the
processed set, and processes the completion whenever `media_items_set = b`
is true (lines 285-302). -/
inductive GuardEvent
  | autoRun (mediaItemsSet : Bool)
  | manualCheck (mediaItemsSet : Bool)
deriving DecidableEq, Repr

/-- Effect of one status observation on the guard state. -/
def guardStep (s : GuardState) : GuardEvent → GuardState
  | .autoRun b =>
    if s.processed then s
    else if b then { processed := true, processCount := s.processCount + 1 }
    else s
  | .manualCheck b =>
    if b then { s with processCount := s.processCount + 1 } else s

/-- Guard state after a sequence of observations, starting from an empty
processed set. -/
def guardRun (events : List GuardEvent) : GuardState :=
  events.foldl guardStep { processed := false, processCount := 0 }

theorem guardRun_auto_aux (events : List GuardEvent)
    (hauto : ∀ e ∈ events, ∃ b, e = GuardEvent.autoRun b) :
    ∀ s : GuardState, (s.processed = false → s.processCount = 0) → s.processCount ≤ 1 →
      ((events.foldl guardStep s).processed = false →
        (events.foldl guardStep s).processCount = 0)
      ∧ (events.foldl guardStep s).processCount ≤ 1 := by
  induction events with
  | nil => intro s h0 h1; exact ⟨h0, h1⟩
  | cons e rest ih =>
    intro s h0 h1
    obtain ⟨b, rfl⟩ := hauto e (List.mem_cons_self e rest)
    have hrest : ∀ x ∈ rest, ∃ b, x = GuardEvent.autoRun b :=
      fun x hx => hauto x (List.mem_cons_of_mem _ hx)
    simp only [List.foldl_cons]
    by_cases hp : s.processed
    · have : guardStep s (.autoRun b) = s := by simp [guardStep, hp]
      rw [this]
      exact ih hrest s h0 h1
    · have hp0 : s.processed = false := by simpa using hp
      cases b with
      | true =>
        have : guardStep s (.autoRun true) = { processed := true, processCount := s.processCount + 1 } := by
          simp [guardStep, hp]
        rw [this]
        have hcount : s.processCount = 0 := h0 hp0
        refine ih hrest _ (fun hfalse => by simp at hfalse) ?_
        simp [hcount]
      | false =>
        have : guardStep s (.autoRun false) = s := by simp [guardStep, hp]
        rw [this]
        exact ih hrest s h0 h1

/-- C1 counterexample: the completion of a single picker session is processed
twice — once by the manual "Check selection" path, then again by the automatic
poll, which finds the session absent from the processed set because the manual
path never recorded it. -/
theorem picker_completion_processed_twice :
    (guardRun [GuardEvent.manualCheck true, GuardEvent.autoRun true]).processCount = 2
    ∧ ¬ (guardRun [GuardEvent.manualCheck true, GuardEvent.autoRun true]).processCount ≤ 1 := by
  decide

/-- C1 (amended): the processed-set guard keyed by `picker_session_id` does
make the automatic poll path idempotent — across any sequence of automatic
polling runs, the completion event is processed at most once — but the manual
"Check selection" retry path neither consults nor updates the processed set,
so a completion observed by the manual path and again by the automatic poll is
processed twice. -/
theorem picker_guard_auto_idempotent (events : List GuardEvent)
    (hauto : ∀ e ∈ events, ∃ b, e = GuardEvent.autoRun b) :
    (guardRun events).processCount ≤ 1 :=
  (guardRun_auto_aux events hauto { processed := false, processCount := 0 }
    (fun _ => rfl) (Nat.zero_le 1)).2

/-- Witness for the amended C1 at a concrete all-automatic trace. -/
theorem picker_guard_auto_idempotent_witness :
    (guardRun [GuardEvent.autoRun false, GuardEvent.autoRun true,
      GuardEvent.autoRun true]).processCount ≤ 1 :=
  picker_guard_auto_idempotent _ (by
    intro e he
    fin_cases he
    · exact ⟨false, rfl⟩
    · exact ⟨true, rfl⟩
    · exact ⟨true, rfl⟩)

/-! ## Poll timing (effect poll, part_000 lines 80-98; wait loop lines 281-305) -/

/-- Whether one tick of the interval callback `poll` (lines 83-94) issues a
status query: the first statement (line 84) returns without querying when the
wall-clock time elapsed since the run began exceeds the 120s timeout; `elapsed`
is measured at the tick itself, so a slow earlier poll cannot extend the
window. -/
def effectPollIssuesQuery (elapsed : Nat) : Bool :=
  !(decide (elapsed > pickerTimeoutMs))

/-- The elapsed times at which a polling run with ticks at the given elapsed
times actually issues status queries. `setInterval` itself is never cleared by
the timeout, so ticks may continue indefinitely; only the query is skipped. -/
def effectQueryTimes (ticks : List Nat) : List Nat :=
  ticks.filter effectPollIssuesQuery

/-- The elapsed times scheduled by `poll(); setInterval(poll, 3000)`: an
immediate call and then one every 3000 ms (lines 95-96). -/
def scheduledTicks (n : Nat) : List Nat :=
  (List.range n).map (fun k => pollIntervalMs * k)

/-- One run of the `while (Date.now() - start < timeoutMs)` wait loop in
`handlePickerFinished` (lines 285-305). `status k` is the `media_items_set`
value returned by the k-th `getPickerSession` call, `latency k` the wall-clock
ms that call takes. Returns the elapsed times at which status queries were
issued and whether completion was observed; on `false` the loop sleeps 3000 ms
(line 304) and re-checks the total elapsed time. `fuel` bounds the recursion;
since every iteration advances elapsed time by at least 3000 ms, 41 units are
enough to reach the 120000 ms bound. -/
def pickerWaitLoop (status : Nat → Bool) (latency : Nat → Nat) :
    Nat → Nat → Nat → List Nat × Bool
  | 0, _, _ => ([], false)
  | fuel + 1, k, elapsed =>
    if elapsed < pickerTimeoutMs then
      if status k then ([elapsed], true)
      else
        let rest := pickerWaitLoop status latency fuel (k + 1) (elapsed + latency k + pollIntervalMs)
        (elapsed :: rest.1, rest.2)
    else ([], false)

theorem pickerWaitLoop_queries_lt_timeout (status : Nat → Bool) (latency : Nat → Nat) :
    ∀ fuel k elapsed t, t ∈ (pickerWaitLoop status latency fuel k elapsed).1 →
      t < pickerTimeoutMs := by
  intro fuel
  induction fuel with
  | zero => intro k elapsed t ht; simp [pickerWaitLoop] at ht
  | succ n ih =>
    intro k elapsed t ht
    simp only [pickerWaitLoop] at ht
    by_cases he : elapsed < pickerTimeoutMs
    · rw [if_pos he] at ht
      by_cases hs : status k
      · rw [if_pos hs] at ht
        simp at ht
        omega
      · rw [if_neg hs] at ht
        simp only [List.mem_cons] at ht
        rcases ht with rfl | ht
        · exact he
        · exact ih (k + 1) (elapsed + latency k + pollIntervalMs) t ht
    · rw [if_neg he] at ht
      simp at ht

/-- C2: completion is detected by polling at the fixed 3-second interval, and
no status query is ever issued after the 120-second outer timeout, in either
polling loop and independently of any single poll's latency: (1) an interval
tick issues a query iff its own wall-clock elapsed time has not passed 120s,
whatever the tick times are; (2) every query the wait loop issues happens at
an elapsed time strictly below 120s, for every status and latency function;
(3) with prompt polls and a never-completing picker the wait-loop queries are
exactly at 0, 3000, ..., 117000 ms — 3 seconds apart until the timeout; (4)
when `media_items_set` is already true the loop queries once and stops. -/
theorem picker_polling_timeout_bound (ticks : List Nat) (status : Nat → Bool)
    (latency : Nat → Nat) :
    (∀ t ∈ effectQueryTimes ticks, t ≤ pickerTimeoutMs)
    ∧ (∀ t, t > pickerTimeoutMs → effectPollIssuesQuery t = false)
    ∧ (∀ fuel k elapsed t, t ∈ (pickerWaitLoop status latency fuel k elapsed).1 →
        t < pickerTimeoutMs)
    ∧ (pickerWaitLoop (fun _ => false) (fun _ => 0) 41 0 0).1
        = (List.range 40).map (fun k => pollIntervalMs * k)
    ∧ (pickerWaitLoop (fun _ => true) latency 41 0 0) = ([0], true) := by
  refine ⟨?_, ?_, pickerWaitLoop_queries_lt_timeout status latency, by decide, rfl⟩
  · intro t ht
    have := List.of_mem_filter ht
    simp [effectPollIssuesQuery] at this
    exact this
  · intro t hgt
    simp [effectPollIssuesQuery]
    exact hgt

/-- Witness for C2 at concrete tick times, a concrete queried time, a concrete
status/latency pair, and a concrete wait-loop query. -/
theorem picker_polling_timeout_bound_witness :
    (0 ∈ effectQueryTimes [0, 3000, 121000] → (0 : Nat) ≤ pickerTimeoutMs)
    ∧ ((121000 : Nat) > pickerTimeoutMs → effectPollIssuesQuery 121000 = false)
    ∧ (3000 ∈ (pickerWaitLoop (fun _ => false) (fun _ => 7000) 41 0 0).1 →
        (3000 : Nat) < pickerTimeoutMs) := by
  have h := picker_polling_timeout_bound [0, 3000, 121000] (fun _ => false) (fun _ => 7000)
  exact ⟨fun hm => h.1 0 hm, fun hg => h.2.1 121000 hg, fun hm => h.2.2.1 41 0 0 3000 hm⟩

/-! ## Transient poll errors (effect poll, part_000 lines 83-94) -/

/-- Outcome of the `getPickerSession` call inside one interval tick: the call
threw, or returned with the given `media_items_set`. -/
inductive PollResult
  | err
  | ok (mediaItemsSet : Bool)
deriving DecidableEq, Repr

/-- State touched by the interval callback: whether the picker session id has
been added to `processedPickerSessionsRef` and how many times completion
handling (`handlePickerFinished`) has been invoked by this run. -/
structure EffectPollState where
  processed : Bool
  completionsHandled : Nat
deriving DecidableEq, Repr

/-- One invocation of the interval callback `poll` (lines 83-94) at wall-clock
`elapsed` with call outcome `r`: after the timeout guard, a thrown error is
swallowed by the empty `catch` (lines 91-93) leaving everything untouched;
`media_items_set = true` marks the session processed (line 88) and invokes
completion handling (line 89); `false` does nothing. -/
def effectPollStep (st : EffectPollState) (elapsed : Nat) (r : PollResult) : EffectPollState :=
  if elapsed > pickerTimeoutMs then st
  else
    match r with
    | .err => st
    | .ok true => { processed := true, completionsHandled := st.completionsHandled + 1 }
    | .ok false => st

/-- The state after a polling run processes the given ticks in order. -/
def effectPollRun (st : EffectPollState) (ticks : List (Nat × PollResult)) : EffectPollState :=
  ticks.foldl (fun s t => effectPollStep s t.1 t.2) st

/-- C8: a poll whose status call throws is swallowed whole — it does not mark
the picker session processed, does not invoke completion handling, and leaves
the rest of the polling run exactly as if the failing tick had not happened,
so a transient failure never terminates the loop early and never records a
completion event. -/
theorem poll_error_swallowed :
    (∀ (st : EffectPollState) (elapsed : Nat), effectPollStep st elapsed .err = st)
    ∧ (∀ (st : EffectPollState) (elapsed : Nat) (rest : List (Nat × PollResult)),
        effectPollRun st ((elapsed, .err) :: rest) = effectPollRun st rest) := by
  have hstep : ∀ (st : EffectPollState) (elapsed : Nat), effectPollStep st elapsed .err = st := by
    intro st elapsed
    unfold effectPollStep
    split <;> rfl
  refine ⟨hstep, ?_⟩
  intro st elapsed rest
  simp only [effectPollRun, List.foldl_cons]
  rw [hstep]

/-! ## Picker timeout behaviour (part_000: `handlePickerFinished` lines 277-332,
skip/retry buttons lines 436-460) -/

/-- State of the chat component that the picker flow touches: whether the
assistant message carrying `stage = selecting_references` with a
`picker_session_id` is (still) in the message list — messages are only ever
appended, never removed or restaged by this flow — the `loading` flag, how
many times `storeReferencePhotos` has been called, and whether the timeout
message (lines 306-312) has been appended. -/
structure ChatState where
  hasPickerMessage : Bool
  loading : Bool
  storeCalls : Nat
  timeoutMessageShown : Bool
deriving DecidableEq, Repr

/-- Embedding of `handlePickerFinished` (lines 277-332): set `loading`, run the
120s/3s wait loop; on observed completion fetch the media list and call
`storeReferencePhotos` once and append the store response message; on timeout
append the timeout message; either way the `finally` clears `loading` and the
picker message stays in the list. -/
def handlePickerFinished (st : ChatState) (status : Nat → Bool) (latency : Nat → Nat) :
    ChatState :=
  let r := pickerWaitLoop status latency 41 0 0
  if r.2 then
    { st with loading := false, storeCalls := st.storeCalls + 1 }
  else
    { st with loading := false, timeoutMessageShown := true }

/-- The "Check selection" button (lines 436-452) is rendered while the picker
message is present and is disabled only by `loading`; clicking it re-runs
`handlePickerFinished`, i.e. polls again. -/
def checkSelectionEnabled (st : ChatState) : Bool :=
  st.hasPickerMessage && !st.loading

/-- The "Skip" button (lines 453-460) next to it, same render and disable
conditions; clicking it runs `handleSkipReferences` (line 233). -/
def skipEnabled (st : ChatState) : Bool :=
  st.hasPickerMessage && !st.loading

theorem pickerWaitLoop_never_completes (status : Nat → Bool)
    (hstatus : ∀ k, status k = false) (latency : Nat → Nat) :
    ∀ fuel k elapsed, (pickerWaitLoop status latency fuel k elapsed).2 = false := by
  intro fuel
  induction fuel with
  | zero => intro k elapsed; simp [pickerWaitLoop]
  | succ n ih =>
    intro k elapsed
    simp only [pickerWaitLoop]
    by_cases he : elapsed < pickerTimeoutMs
    · rw [if_pos he, hstatus k, if_neg (by simp)]
      exact ih (k + 1) (elapsed + latency k + pollIntervalMs)
    · rw [if_neg he]

/-- C5: when the picker session never reports `media_items_set` within the
120-second window, `handlePickerFinished` appends the timeout message, calls
`storeReferencePhotos` zero times, leaves the picker message (the waiting
stage) in place, and ends with `loading` cleared — so on the next input both
the manual retry ("Check selection", which polls again) and the explicit
"Skip" remain enabled. -/
theorem picker_timeout_keeps_waiting_stage (st : ChatState) (status : Nat → Bool)
    (latency : Nat → Nat) (hstatus : ∀ k, status k = false)
    (hmsg : st.hasPickerMessage = true) :
    (handlePickerFinished st status latency).timeoutMessageShown = true
    ∧ (handlePickerFinished st status latency).storeCalls = st.storeCalls
    ∧ (handlePickerFinished st status latency).hasPickerMessage = true
    ∧ (handlePickerFinished st status latency).loading = false
    ∧ checkSelectionEnabled (handlePickerFinished st status latency) = true
    ∧ skipEnabled (handlePickerFinished st status latency) = true := by
  have hloop : (pickerWaitLoop status latency 41 0 0).2 = false :=
    pickerWaitLoop_never_completes status hstatus latency 41 0 0
  have hpf : handlePickerFinished st status latency
      = { st with loading := false, timeoutMessageShown := true } := by
    simp [handlePickerFinished, hloop]
  rw [hpf]
  simp [checkSelectionEnabled, skipEnabled, hmsg]

/-- Witness for C5 at a concrete chat state and a never-completing picker. -/
theorem picker_timeout_keeps_waiting_stage_witness :
    (handlePickerFinished
        { hasPickerMessage := true, loading := true, storeCalls := 0,
          timeoutMessageShown := false }
        (fun _ => false) (fun _ => 0)).timeoutMessageShown = true
    ∧ (handlePickerFinished
        { hasPickerMessage := true, loading := true, storeCalls := 0,
          timeoutMessageShown := false }
        (fun _ => false) (fun _ => 0)).storeCalls = 0 := by
  have h := picker_timeout_keeps_waiting_stage
    { hasPickerMessage := true, loading := true, storeCalls := 0, timeoutMessageShown := false }
    (fun _ => false) (fun _ => 0) (fun _ => rfl) rfl
  exact ⟨h.1, h.2.1⟩

/-! ## Stage Orchestrator (modelled: the backend stage machine of
backend/app/agents/team.py is not under src/; only the spec §4.1 and the
repository flow documents describe it) -/

/-- Modelled from the spec: the stages of §4.1, exactly the vertices of the
state graph (the backend stage machine itself is not under src/). -/
inductive Stage
  | collecting
  | ready_for_search
  | ready_to_generate
  | selecting_references
  | fetching_picker
  | confirm_generation
  | screening
  | generating
  | uploading
  | completed
  | failed
  | policy_violation
deriving DecidableEq, Repr, Fintype

/-- The edges of the §4.1 state graph as the claim states it:
`collecting → {ready_for_search | ready_to_generate} → [selecting_references |
fetching_picker] → confirm_generation → screening → generating → uploading →
completed`, the bracketed photo-selection stages being skippable, plus
`collecting → confirm_generation` (no people/pets), any stage `→ failed`, and
`screening → policy_violation`. -/
def stageEdge : Stage → Stage → Bool
  | _, .failed => true
  | .collecting, .ready_for_search => true
  | .collecting, .ready_to_generate => true
  | .collecting, .confirm_generation => true
  | .ready_for_search, .selecting_references => true
  | .ready_for_search, .fetching_picker => true
  | .ready_for_search, .confirm_generation => true
  | .ready_to_generate, .selecting_references => true
  | .ready_to_generate, .fetching_picker => true
  | .ready_to_generate, .confirm_generation => true
  | .selecting_references, .confirm_generation => true
  | .fetching_picker, .confirm_generation => true
  | .confirm_generation, .screening => true
  | .screening, .generating => true
  | .screening, .policy_violation => true
  | .generating, .uploading => true
  | .uploading, .completed => true
  | _, _ => false

/-- A handler return is a valid step when it stays in the current stage (a
waiting stage re-prompting) or follows a graph edge. -/
def validStep (s t : Stage) : Bool :=
  t = s || stageEdge s t

/-- Side effects a single dispatch records: photo-service calls and external
generation calls. -/
structure Effects where
  photoServiceCalls : Nat
  generationCalls : Nat
deriving DecidableEq, Repr

/-- No side effects. -/
def noEffects : Effects := { photoServiceCalls := 0, generationCalls := 0 }

/-- Modelled from the spec: the per-stage inputs the dispatch distinguishes —
a collector turn (did extraction complete, were people/pets mentioned), the
`skip` directive, accepting the photo search (did it find anything), the
selection confirmation, picker completion, the generation confirmation, the
screener's verdict, the success of an external step, and an unexpected
failure absorbed by the top-level catch. -/
inductive HandlerInput
  | message (extractionReady mentionsPeopleOrPets : Bool)
  | skipDirective
  | searchAccept (foundPhotos : Bool)
  | confirmSelection
  | pickerComplete
  | confirmGenerate
  | screenResult (approved : Bool)
  | advance (ok : Bool)
  | unexpectedFailure
deriving DecidableEq, Repr, Fintype

/-- Modelled from the spec: one dispatch step of the Stage Orchestrator
(`handle` of §4.1; the backend implementation in backend/app/agents/team.py
and backend/app/api/routes/chat.py is not under src/). Built from §4.1, §4.9
and the repository flow document (src/FLOW_FIX_SUMMARY.md,
src/unnamed/part_003): a completed collection moves to `ready_for_search`
when people/pets are mentioned and straight to `confirm_generation`
otherwise; `skip` in any photo-related stage routes to `confirm_generation`
without touching the photo service; accepting the search issues the photo
query and moves on to selection or, when nothing was found, onward as if
skipped; the generation confirmation enters `screening`, a denial ends in
`policy_violation`, then `generating → uploading → completed`, any unexpected
failure ends in `failed`, and an input a stage does not understand leaves the
stage unchanged. -/
def handle : Stage → HandlerInput → Stage × Effects
  | _, .unexpectedFailure => (.failed, noEffects)
  | .collecting, .message ready people =>
    if ready then
      if people then (.ready_for_search, noEffects) else (.confirm_generation, noEffects)
    else (.collecting, noEffects)
  | .ready_for_search, .skipDirective => (.confirm_generation, noEffects)
  | .ready_for_search, .searchAccept found =>
    if found then (.selecting_references, { photoServiceCalls := 1, generationCalls := 0 })
    else (.confirm_generation, { photoServiceCalls := 1, generationCalls := 0 })
  | .ready_to_generate, .skipDirective => (.confirm_generation, noEffects)
  | .selecting_references, .skipDirective => (.confirm_generation, noEffects)
  | .selecting_references, .confirmSelection => (.confirm_generation, noEffects)
  | .fetching_picker, .skipDirective => (.confirm_generation, noEffects)
  | .fetching_picker, .pickerComplete =>
    (.confirm_generation, { photoServiceCalls := 1, generationCalls := 0 })
  | .confirm_generation, .confirmGenerate => (.screening, noEffects)
  | .screening, .screenResult approved =>
    if approved then (.generating, noEffects) else (.policy_violation, noEffects)
  | .generating, .advance ok =>
    if ok then (.uploading, { photoServiceCalls := 0, generationCalls := 1 })
    else (.failed, { photoServiceCalls := 0, generationCalls := 1 })
  | .uploading, .advance ok =>
    if ok then (.completed, noEffects) else (.failed, noEffects)
  | s, _ => (s, noEffects)

/-- C4: every stage `handle` returns is a valid successor of the prior stage
in the §4.1 graph (staying put or following an edge), no stage outside the
graph's vertex set can appear (the stage type has exactly those vertices),
and in particular a direct `collecting → completed` transition never occurs —
the graph has no such edge and no input makes the collecting handler return
`completed`. -/
theorem handle_valid_walk :
    (∀ (s : Stage) (i : HandlerInput), validStep s (handle s i).1 = true)
    ∧ (∀ i : HandlerInput, (handle .collecting i).1 ≠ .completed)
    ∧ stageEdge .collecting .completed = false := by
  refine ⟨?_, ?_, by decide⟩ <;> decide

/-- C6: the `skip` directive, in every photo-related stage (`ready_for_search`,
`ready_to_generate`, `selecting_references`, `fetching_picker`),
deterministically routes the session to `confirm_generation` with no
photo-service call and no generation call recorded, whatever progress the
in-flight search or picker had made. -/
theorem skip_routes_to_confirm_generation :
    handle .ready_for_search .skipDirective = (.confirm_generation, noEffects)
    ∧ handle .ready_to_generate .skipDirective = (.confirm_generation, noEffects)
    ∧ handle .selecting_references .skipDirective = (.confirm_generation, noEffects)
    ∧ handle .fetching_picker .skipDirective = (.confirm_generation, noEffects)
    ∧ (handle .ready_for_search .skipDirective).2.photoServiceCalls = 0 := by
  decide

/-! ## Token Budget Governor (modelled: backend/app/... token tracker is not
under src/; spec §4.4, §7) -/

/-- Modelled from the spec: the result of `check(user_id)` in §4.4. -/
inductive BudgetStatus
  | ok
  | warn
  | exceeded
deriving DecidableEq, Repr

/-- Modelled from the spec: the daily-ceiling check of §4.4 — `exceeded` once
the user's daily token total has reached the hard ceiling, `warn` from the
80% warning threshold (surfaced but non-blocking), `ok` below it. -/
def dailyCheck (dailyTotal dailyCeiling : Nat) : BudgetStatus :=
  if dailyCeiling ≤ dailyTotal then .exceeded
  else if dailyCeiling * 8 ≤ dailyTotal * 10 then .warn
  else .ok

/-- Modelled from the spec: the distinct error kinds of §7 that a stage can
surface. -/
inductive ChatError
  | budgetExceeded
  | policyViolation
  | unexpectedFailure
deriving DecidableEq, Repr

/-- Result of a `GenerateFromReferences` call: the outcome (a distinct error
or the reached stage), how many external generation calls were issued, and
the session's stage afterwards. -/
structure GenerateResult where
  outcome : Except ChatError Stage
  generationCalls : Nat
  stageAfter : Stage
deriving Repr

/-- Modelled from the spec: `GenerateFromReferences` with the §4.4 budget gate
(the backend generation route is not under src/). The budget check runs first;
on `exceeded` the call is rejected with the distinct `BudgetExceeded` error,
zero external generation calls are issued, and the session keeps its stage;
otherwise the pipeline runs one external generation call through to
`completed`. -/
def generateFromReferences (dailyTotal dailyCeiling : Nat) (stage : Stage) : GenerateResult :=
  if dailyCheck dailyTotal dailyCeiling = .exceeded then
    { outcome := .error .budgetExceeded, generationCalls := 0, stageAfter := stage }
  else
    { outcome := .ok .completed, generationCalls := 1, stageAfter := .completed }

/-- C3: once the user's daily token total has reached the ceiling, a
`GenerateFromReferences` call is rejected with the distinct `BudgetExceeded`
error (not the generic failure), zero external generation calls are issued —
the budget check runs before, never after, resource consumption — and the
session keeps its stage, so after the daily reset (daily total back to zero)
the same call proceeds normally. -/
theorem budget_gate_before_generation (dailyTotal dailyCeiling : Nat) (stage : Stage)
    (hceil : dailyCeiling ≤ dailyTotal) :
    (generateFromReferences dailyTotal dailyCeiling stage).outcome
        = .error .budgetExceeded
    ∧ (generateFromReferences dailyTotal dailyCeiling stage).generationCalls = 0
    ∧ (generateFromReferences dailyTotal dailyCeiling stage).stageAfter = stage
    ∧ ChatError.budgetExceeded ≠ ChatError.unexpectedFailure
    ∧ (0 < dailyCeiling →
        (generateFromReferences 0 dailyCeiling stage).generationCalls = 1
        ∧ (generateFromReferences 0 dailyCeiling stage).outcome = .ok .completed) := by
  have hex : dailyCheck dailyTotal dailyCeiling = .exceeded := by
    simp [dailyCheck, hceil]
  refine ⟨?_, ?_, ?_, by decide, ?_⟩
  · simp [generateFromReferences, hex]
  · simp [generateFromReferences, hex]
  · simp [generateFromReferences, hex]
  · intro hpos
    have hok : dailyCheck 0 dailyCeiling ≠ BudgetStatus.exceeded := by
      unfold dailyCheck
      rw [if_neg (by omega : ¬ dailyCeiling ≤ 0), if_neg (by omega : ¬ dailyCeiling * 8 ≤ 0 * 10)]
      decide
    constructor <;> simp [generateFromReferences, hok]

/-- Witness for C3 at a concrete exhausted budget (daily total 1000, ceiling
1000) and a concrete stage. -/
theorem budget_gate_before_generation_witness :
    (generateFromReferences 1000 1000 .confirm_generation).outcome
        = .error .budgetExceeded
    ∧ (generateFromReferences 1000 1000 .confirm_generation).generationCalls = 0 := by
  have h := budget_gate_before_generation 1000 1000 .confirm_generation (by decide)
  exact ⟨h.1, h.2.1⟩

/-! ## Reference photo search (modelled: backend/app/tools/google_photos.py and
the `_fetch_reference_photos` merge are not under src/; spec §4.3, src/TIMEOUT_FIXES.md) -/

/-- Modelled from the spec: a photo-service media item as the search returns
it. -/
structure MediaItem where
  media_item_id : String
  url : String
  creation_time : Int
deriving DecidableEq, Repr

/-- Per-query timeout, seconds (spec §4.3, src/TIMEOUT_FIXES.md). -/
def searchTimeoutSecs : Nat := 10

/-- Per-query result cap (spec §4.3). -/
def perQueryCap : Nat := 5

/-- Overall merged cap (spec §4.3). -/
def mergedCap : Nat := 8

/-- Modelled from the spec: the ±14-day date window around the extracted time,
in seconds around a Unix timestamp. -/
def dateWindow (whenTime : Int) : Int × Int :=
  (whenTime - 14 * 86400, whenTime + 14 * 86400)

/-- Modelled from the spec: one bounded query's contribution. `none` models a
timeout or failure of that query alone (degraded to the empty contribution,
with a logged warning); the cap applies per query. -/
def capQuery (result : Option (List MediaItem)) : List MediaItem :=
  (result.getD []).take perQueryCap

/-- Modelled from the spec: de-duplication by `media_item_id`, keeping the
first occurrence of each id. -/
def dedupeById : List MediaItem → List MediaItem
  | [] => []
  | m :: rest =>
    m :: dedupeById (rest.filter fun x => x.media_item_id ≠ m.media_item_id)
termination_by l => l.length
decreasing_by
  simp only [List.length_cons]
  exact Nat.lt_succ_of_le (List.length_filter_le _ _)

/-- Modelled from the spec: merge of the two query contributions — each capped
at 5, concatenated, de-duplicated by id, capped overall at 8. -/
def mergeReferencePhotos (dateResult contentResult : Option (List MediaItem)) :
    List MediaItem :=
  (dedupeById (capQuery dateResult ++ capQuery contentResult)).take mergedCap

/-- Modelled from the spec: the whole search strategy — the date-window query
always runs; the content-category query runs only when people/pets were
extracted (otherwise it contributes nothing). -/
def fetchReferencePhotos (mentionsPeopleOrPets : Bool)
    (dateResult contentResult : Option (List MediaItem)) : List MediaItem :=
  mergeReferencePhotos dateResult (if mentionsPeopleOrPets then contentResult else some [])

theorem dedupeById_mem : ∀ l : List MediaItem, ∀ x ∈ dedupeById l, x ∈ l := by
  intro l
  induction l using dedupeById.induct with
  | case1 => intro x hx; simp [dedupeById] at hx
  | case2 m rest ih =>
    intro x hx
    rw [dedupeById] at hx
    rcases List.mem_cons.mp hx with rfl | hx
    · exact List.mem_cons_self _ _
    · exact List.mem_cons_of_mem m (List.mem_of_mem_filter (ih x hx))

theorem dedupeById_nodup :
    ∀ l : List MediaItem, ((dedupeById l).map (fun m => m.media_item_id)).Nodup := by
  intro l
  induction l using dedupeById.induct with
  | case1 => simp [dedupeById]
  | case2 m rest ih =>
    rw [dedupeById]
    simp only [List.map_cons, List.nodup_cons]
    refine ⟨?_, ih⟩
    intro hmem
    rcases List.mem_map.mp hmem with ⟨x, hx, hid⟩
    have hxf := dedupeById_mem _ x hx
    have := (List.mem_filter.mp hxf).2
    simp only [decide_eq_true_eq] at this
    exact this hid

/-- C7: the search strategy merges a ±14-day date-window query with a
content-category query that runs only when people/pets were extracted; each
query is independently bounded, so one query's timeout degrades only its own
contribution to empty and leaves the other untouched; each query is capped at
5 results, the merge is de-duplicated by `media_item_id` and capped at 8; and
when both queries fail or return nothing the result is empty and the flow
moves to the same stage a user `skip` would reach. -/
theorem search_strategy_merge (dateResult contentResult : Option (List MediaItem))
    (whenTime : Int) (b : Bool) :
    (mergeReferencePhotos none contentResult
        = mergeReferencePhotos (some []) contentResult)
    ∧ (mergeReferencePhotos dateResult none
        = mergeReferencePhotos dateResult (some []))
    ∧ (capQuery dateResult).length ≤ 5
    ∧ (mergeReferencePhotos dateResult contentResult).length ≤ 8
    ∧ ((mergeReferencePhotos dateResult contentResult).map
        (fun m => m.media_item_id)).Nodup
    ∧ fetchReferencePhotos false dateResult contentResult
        = mergeReferencePhotos dateResult (some [])
    ∧ fetchReferencePhotos b none none = []
    ∧ fetchReferencePhotos b (some []) (some []) = []
    ∧ (handle .ready_for_search (.searchAccept false)).1
        = (handle .ready_for_search .skipDirective).1
    ∧ dateWindow whenTime = (whenTime - 14 * 86400, whenTime + 14 * 86400) := by
  refine ⟨rfl, ?_, ?_, ?_, ?_, rfl, ?_, ?_, rfl, rfl⟩
  · rfl
  · exact le_trans (List.length_take_le _ _) (le_refl _)
  · exact le_trans (List.length_take_le _ _) (le_refl _)
  · unfold mergeReferencePhotos
    rw [List.map_take]
    exact List.Nodup.sublist (List.take_sublist _ _) (dedupeById_nodup _)
  · cases b <;> simp [fetchReferencePhotos, mergeReferencePhotos, capQuery, dedupeById]
  · cases b <;> simp [fetchReferencePhotos, mergeReferencePhotos, capQuery, dedupeById]

end MemAgent
